import Mathlib

/-
Formal model of the slide rendering and timeline assembly pipeline in
src/final2cli.py.  Each definition below is a shallow embedding of a named
function (and line range) of that file; the theorems at the end settle the
stated properties of the line breaker, the background fallback, font loading,
the progress bar, per slide durations, the fade envelope, vertical anchoring,
style presets and the box alpha computation.  Real valued quantities (pixel
widths, durations, alpha values) are modelled as exact rationals; Python int()
truncation is modelled by pyTrunc.
-/

/-- Python int() applied to a real value: truncation toward zero. -/
def pyTrunc (q : ℚ) : ℤ := if 0 ≤ q then ⌊q⌋ else ⌈q⌉

/-- final2cli.py lines 101-105: a passage takes the complex script path when
any of its characters lies in the range U+0900 to U+0FFF. -/
def contains_complex_script (text : String) : Bool :=
  text.data.any (fun ch => decide ('ऀ' ≤ ch ∧ ch ≤ '࿿'))

/-- final2cli.py lines 157-171 (render_text_image, complex path): the greedy
line wrapping loop.  A line under construction (Python variable current, a
string of words joined by single spaces) is modelled as its list of words, so
the Python trial string current + " " + words[0] is current ++ [word].  The
parameter w abstracts shape_line (lines 149-155): the shaped advance width of
a candidate line, a function of the whole line because shaping is not
additive across word boundaries.  One unit of fuel is one iteration of the
Python while loop; none models a run that does not finish within the fuel. -/
def wrapFuel (w : List String → ℚ) (maxWidth : ℚ) :
    Nat → List String → List String → List (List String) →
    Option (List (List String))
  | 0, _, _, _ => none
  | _ + 1, [], current, lines =>
      some (if current = [] then lines else lines ++ [current])
  | fuel + 1, word :: rest, current, lines =>
      if w (current ++ [word]) ≤ maxWidth then
        wrapFuel w maxWidth fuel rest (current ++ [word]) lines
      else
        wrapFuel w maxWidth fuel (word :: rest) [] (lines ++ [current])

/-- An abstract file system view: whether a path is a directory, whether it
exists, its directory listing, and whether PIL Image.open succeeds on it (a
directory or a non image file makes Image.open raise). -/
structure FS where
  isDir : String → Bool
  pathExists : String → Bool
  listDir : String → List String
  validImage : String → Bool

/-- final2cli.py line 286: the background file extensions accepted when the
background argument is a directory. -/
def image_exts : List String := [".png", ".jpg", ".jpeg", ".webp", ".bmp"]

/-- final2cli.py lines 287-291: files of the background directory whose
lower cased name ends in an accepted extension, joined to the directory. -/
def matching_bg_files (fs : FS) (dir : String) : List String :=
  ((fs.listDir dir).filter
    (fun f => image_exts.any (fun e => f.toLower.endsWith e))).map
    (fun f => dir ++ "/" ++ f)

/-- final2cli.py lines 283-293: bg_files is set only when the background
argument names a directory; an empty match list is replaced by none
(the comment on line 293 reads: fallback to solid bg). -/
def bg_files (fs : FS) (bg_img : Option String) : Option (List String) :=
  match bg_img with
  | some dir =>
      if fs.isDir dir then
        let files := matching_bg_files fs dir
        if files = [] then none else some files
      else none
  | none => none

/-- final2cli.py lines 298-301: per slide background choice; pick abstracts
random.choice.  When bg_files is none the original background argument is
passed through unchanged, even when it names a directory. -/
def chosen_bg (fs : FS) (pick : List String → String) (bg_img : Option String) :
    Option String :=
  match bg_files fs bg_img with
  | some files => some (pick files)
  | none => bg_img

/-- The background actually composited under a slide. -/
inductive BgSource
  | solid
  | image (path : String)
deriving DecidableEq

/-- An exception escaping the rendering of a slide. -/
inductive PipelineError
  | imageOpenError (path : String)
deriving DecidableEq

/-- final2cli.py lines 125-128 (render_text_image): an existing bg_path is
given to Image.open and resized, otherwise the canvas is the solid fill
(40, 40, 40, 255).  Image.open raises on a path that is not a readable image
file, for example on a directory, which this model reports as an error. -/
def resolve_bg (fs : FS) (bg_path : Option String) : Except PipelineError BgSource :=
  match bg_path with
  | some p =>
      if fs.pathExists p then
        if fs.validImage p then Except.ok (BgSource.image p)
        else Except.error (PipelineError.imageOpenError p)
      else Except.ok BgSource.solid
  | none => Except.ok BgSource.solid

/-- A file system holding exactly one entry: an existing directory named
bgdir with an empty listing. -/
def emptyDirFS : FS where
  isDir := fun p => decide (p = "bgdir")
  pathExists := fun p => decide (p = "bgdir")
  listDir := fun _ => []
  validImage := fun _ => false

/-- The font object the text of a slide is drawn with. -/
inductive LoadedFont
  | truetype (path : String)
  | fallbackDefault
deriving DecidableEq

/-- An error escaping render_text_image. -/
inductive RenderError
  | fontLoadError
deriving DecidableEq

/-- final2cli.py lines 136-143 and 222-227 (render_text_image): on the complex
path, freetype.Face(font_path) raises when the font file is unreadable or
invalid (modelled as fontLoadError); on the simple path the ImageFont.truetype
call is wrapped in try/except and failure silently falls back to
ImageFont.load_default().  fontOk states whether the font file loads. -/
def slide_font (fontOk : Bool) (font_path : String) (text : String) :
    Except RenderError LoadedFont :=
  if contains_complex_script text then
    if fontOk then Except.ok (LoadedFont.truetype font_path)
    else Except.error RenderError.fontLoadError
  else
    if fontOk then Except.ok (LoadedFont.truetype font_path)
    else Except.ok LoadedFont.fallbackDefault

/-- final2cli.py lines 295-319 (generate_images): slides are rendered one
after another; the font is loaded inside each render call, and the first
slide whose render raises aborts the loop. -/
def generate_images_fonts (fontOk : Bool) (font_path : String) :
    List String → Except RenderError (List LoadedFont)
  | [] => Except.ok []
  | chunk :: rest => do
      let f ← slide_font fontOk font_path chunk
      let fs ← generate_images_fonts fontOk font_path rest
      pure (f :: fs)

/-- final2cli.py line 133: the 8 bit alpha of the text box fill,
int(max(0.0, min(1.0, box_alpha)) * 255). -/
def boxAlpha255 (box_alpha : ℚ) : ℤ :=
  pyTrunc (max 0 (min 1 box_alpha) * 255)

/-- The vertical anchor of the text block (the text-position argument). -/
inductive TextPosition
  | top
  | center
  | bottom
deriving DecidableEq

/-- final2cli.py lines 176-181 (render_text_image, complex path): the top y
coordinate of the text block given the canvas height and the real valued
block height total_h; bottom uses int(total_h), center uses Python floor
division by 2. -/
def vertical_y_complex (canvas_h : ℤ) (total_h : ℚ) : TextPosition → ℚ
  | TextPosition.top => 60
  | TextPosition.bottom => max ((canvas_h : ℚ) - ((pyTrunc total_h : ℤ) : ℚ) - 60) 30
  | TextPosition.center => max ((⌊((canvas_h : ℚ) - total_h) / 2⌋ : ℤ) : ℚ) 30

/-- final2cli.py lines 236-241 (render_text_image, simple path): the same
anchor computation with the integer block height of the simple path. -/
def vertical_y_simple (canvas_h total_h : ℤ) : TextPosition → ℚ
  | TextPosition.top => 60
  | TextPosition.bottom => max ((canvas_h : ℚ) - (total_h : ℚ) - 60) 30
  | TextPosition.center => max ((⌊((canvas_h : ℚ) - (total_h : ℚ)) / 2⌋ : ℤ) : ℚ) 30

/-- The style fields a preset may override (final2cli.py lines 437-440). -/
structure StyleFields where
  text_position : TextPosition
  font_color : String
  box_color : String
  box_alpha : ℚ
deriving DecidableEq

/-- The style argument: default, caption or subtitle. -/
inductive StylePreset
  | default
  | caption
  | subtitle
deriving DecidableEq

/-- final2cli.py lines 436-451 (main): presets are resolved into concrete
field values before generate_images is called; default keeps the base
arguments unchanged. -/
def resolve_style (style : StylePreset) (base : StyleFields) : StyleFields :=
  match style with
  | StylePreset.default => base
  | StylePreset.caption =>
      { text_position := TextPosition.top, font_color := "#FFFF00",
        box_color := "#000000", box_alpha := 7/10 }
  | StylePreset.subtitle =>
      { text_position := TextPosition.bottom, font_color := "#FFFFFF",
        box_color := "#000000", box_alpha := 7/10 }

/-- The style dependent observables of a rendered frame: block top, box fill
color and alpha byte, text color. -/
structure FrameSpec where
  text_top : ℚ
  box_fill_color : String
  box_fill_alpha : ℤ
  text_color : String
deriving DecidableEq

/-- render_text_image (final2cli.py lines 108-123): the renderer receives only
concrete field values; its signature has no style or preset parameter. -/
def render_frame_spec (canvas_h : ℤ) (total_h : ℚ) (fields : StyleFields) :
    FrameSpec :=
  { text_top := vertical_y_complex canvas_h total_h fields.text_position
  , box_fill_color := fields.box_color
  , box_fill_alpha := boxAlpha255 fields.box_alpha
  , text_color := fields.font_color }

/-- The pipeline as run from main: resolve the preset, then render. -/
def render_with_style (canvas_h : ℤ) (total_h : ℚ) (style : StylePreset)
    (base : StyleFields) : FrameSpec :=
  render_frame_spec canvas_h total_h (resolve_style style base)

/-- One slide of the timeline: its video duration and its audio duration. -/
structure SlideUnit where
  videoDur : ℚ
  audioDur : ℚ
deriving DecidableEq

/-- final2cli.py lines 340-347 (assemble_video): the clip duration starts as
the narration audio duration; when min_duration > 0 and the audio is shorter,
the duration is raised to min_duration and audio.set_duration extends the
audio to the same length (moviepy fills the extension with silence). -/
def make_unit (min_duration audio_duration : ℚ) : SlideUnit :=
  if 0 < min_duration ∧ audio_duration < min_duration then
    { videoDur := min_duration, audioDur := min_duration }
  else
    { videoDur := audio_duration, audioDur := audio_duration }

/-- final2cli.py lines 397-403 (assemble_video): the foreground progress bar
width for slide idx of total_slides, int(size[0] * float(idx + 1) / total_slides)
in exact arithmetic. -/
def bar_width (canvas_w total_slides idx : ℕ) : ℤ :=
  pyTrunc ((canvas_w : ℚ) * (((idx : ℚ) + 1) / (total_slides : ℚ)))

/-- The final composed clip after line 422 of final2cli.py. -/
structure FinalVideo where
  duration : ℚ
  fadein_dur : ℚ
  fadeout_dur : ℚ
deriving DecidableEq

/-- final2cli.py line 422 (assemble_video): after music mixing and the
overlays, the timeline gets final.fadein(1).fadeout(1); the fade parameters
are the constant 1 second whatever the total duration is. -/
def apply_envelope (total_duration : ℚ) : FinalVideo :=
  { duration := total_duration, fadein_dur := 1, fadeout_dur := 1 }

/-- A concrete shaped width table used on a single oversized word: the word
alone measures 640 px, wider than the usable 620 px of a 720 px canvas. -/
def wOversized (ws : List String) : ℚ :=
  if ws = ["अन्तरराष्ट्रीयीकरण"] then 640 else 0

/-- A concrete shaped width table for a small terminating wrap run. -/
def wDemo (ws : List String) : ℚ :=
  if ws = ["ab"] then 2
  else if ws = ["ab", "cd"] then 4
  else if ws = ["ab", "cd", "efghij"] then 10
  else if ws = ["efghij"] then 6
  else 0

/-- Helper: when the word at the head of the queue is alone wider than the
usable width and the current line is empty, every loop iteration takes the
reject branch without consuming the word, so no amount of fuel finishes
the wrap. -/
theorem wrap_stuck (w : List String → ℚ) (maxWidth : ℚ) (word : String)
    (rest : List String) (hw : ¬ w [word] ≤ maxWidth) :
    ∀ (fuel : Nat) (lines : List (List String)),
      wrapFuel w maxWidth fuel (word :: rest) [] lines = none := by
  intro fuel
  induction fuel with
  | zero => intro lines; rfl
  | succ n ih =>
      intro lines
      show (if w ([] ++ [word]) ≤ maxWidth then
              wrapFuel w maxWidth n rest ([] ++ [word]) lines
            else wrapFuel w maxWidth n (word :: rest) [] (lines ++ [[]])) = none
      rw [if_neg (by simpa using hw)]
      exact ih _

/-- Helper: any terminating run of the wrap loop only appends lines whose
shaped width passed the acceptance test, and the emitted lines carry exactly
the words of the wrap state, in order. -/
theorem wrap_invariant (w : List String → ℚ) (maxWidth : ℚ) :
    ∀ (fuel : Nat) (words current : List String) (lines res : List (List String)),
      wrapFuel w maxWidth fuel words current lines = some res →
      (∀ l ∈ lines, w l ≤ maxWidth) →
      (current = [] ∨ w current ≤ maxWidth) →
      (∀ l ∈ res, w l ≤ maxWidth) ∧ res.flatten = lines.flatten ++ current ++ words := by
  intro fuel
  induction fuel with
  | zero => intro words current lines res h; exact absurd h (by simp [wrapFuel])
  | succ n ih =>
      intro words current lines res h hlines hcur
      match words with
      | [] =>
          simp only [wrapFuel, Option.some_inj] at h
          by_cases hc : current = []
          · subst hc
            rw [if_pos rfl] at h
            subst h
            exact ⟨hlines, by simp⟩
          · rw [if_neg hc] at h
            subst h
            rcases hcur with hcur | hcur
            · exact absurd hcur hc
            · refine ⟨?_, by simp⟩
              intro l hl
              rcases List.mem_append.mp hl with hl | hl
              · exact hlines l hl
              · simp at hl; subst hl; exact hcur
      | word :: rest =>
          by_cases hif : w (current ++ [word]) ≤ maxWidth
          · have h' : wrapFuel w maxWidth n rest (current ++ [word]) lines = some res := by
              simpa [wrapFuel, if_pos hif] using h
            have := ih rest (current ++ [word]) lines res h' hlines (Or.inr hif)
            refine ⟨this.1, ?_⟩
            rw [this.2]
            simp
          · have h' : wrapFuel w maxWidth n (word :: rest) [] (lines ++ [current])
                = some res := by
              simpa [wrapFuel, if_neg hif] using h
            rcases hcur with hc | hc
            · subst hc
              have hnone : wrapFuel w maxWidth n (word :: rest) [] (lines ++ [[]]) = none :=
                wrap_stuck w maxWidth word rest (by simpa using hif) n _
              rw [h'] at hnone
              exact absurd hnone (by simp)
            · have hlines' : ∀ l ∈ lines ++ [current], w l ≤ maxWidth := by
                intro l hl
                rcases List.mem_append.mp hl with hl | hl
                · exact hlines l hl
                · simp at hl; subst hl; exact hc
              have := ih (word :: rest) [] (lines ++ [current]) res h' hlines' (Or.inl rfl)
              refine ⟨this.1, ?_⟩
              rw [this.2]
              simp

/-- Claim C1: the claim states the greedy line wrapping loop of the complex
script path terminates on every passage, placing a single over wide word
alone on its own line.  The code does not: on a passage consisting of one
whitespace delimited word whose shaped advance width (640 px) exceeds the
usable width (720 - 100 = 620 px), every iteration appends an empty line and
never consumes the word, so the loop runs forever; for every fuel bound the
wrap fails to finish. -/
theorem wrap_oversized_word_diverges :
    ∀ fuel : Nat,
      wrapFuel wOversized 620 fuel ["अन्तरराष्ट्रीयीकरण"] [] [] = none := by
  intro fuel
  exact wrap_stuck wOversized 620 "अन्तरराष्ट्रीयीकरण" [] (by decide) fuel []

/-- Claim C7: whenever the complex path line breaker terminates, every
emitted line has shaped advance width at most the usable canvas width, and
the emitted lines are exactly the words of the passage in order, so the
bound is enforced by line breaking and never by dropping text. -/
theorem wrap_lines_fit_usable_width (w : List String → ℚ) (maxWidth : ℚ)
    (fuel : Nat) (words : List String) (res : List (List String))
    (h : wrapFuel w maxWidth fuel words [] [] = some res) :
    (∀ line ∈ res, w line ≤ maxWidth) ∧ res.flatten = words := by
  have := wrap_invariant w maxWidth fuel words [] [] res h (by simp) (Or.inl rfl)
  simpa using this

/-- Witness for claim C7: a concrete wrap run that terminates after breaking
a three word passage into two lines, both within the usable width. -/
theorem wrap_lines_fit_usable_width_witness :
    wrapFuel wDemo 6 8 ["ab", "cd", "efghij"] [] []
      = some [["ab", "cd"], ["efghij"]]
    ∧ ((∀ line ∈ [["ab", "cd"], ["efghij"]], wDemo line ≤ 6)
        ∧ [["ab", "cd"], ["efghij"]].flatten = ["ab", "cd", "efghij"]) :=
  ⟨by decide, wrap_lines_fit_usable_width wDemo 6 8 _ _ (by decide)⟩

/-- Claim C2: the claim states a background directory with zero matching
image files degrades to the solid fill with a logged warning and the run
still succeeds.  In the code, bg_files becomes none but chosen_bg then
passes the directory path itself to render_text_image; the directory exists,
so Image.open is called on it and raises, aborting the pipeline instead of
falling back to the solid fill. -/
theorem empty_bg_dir_open_error :
    chosen_bg emptyDirFS (fun files => files.headD "") (some "bgdir") = some "bgdir"
    ∧ resolve_bg emptyDirFS
        (chosen_bg emptyDirFS (fun files => files.headD "") (some "bgdir"))
        = Except.error (PipelineError.imageOpenError "bgdir")
    ∧ resolve_bg emptyDirFS
        (chosen_bg emptyDirFS (fun files => files.headD "") (some "bgdir"))
        ≠ Except.ok BgSource.solid :=
  ⟨rfl, rfl, fun h => Except.noConfusion h⟩

/-- Counterexample to claim C3: with an unloadable font, a slide whose text
is simple script is rendered with the silently substituted library default
font, and no font load error is raised. -/
theorem invalid_font_silently_substituted :
    slide_font false "font.ttf" "Great phone, value for money"
      = Except.ok LoadedFont.fallbackDefault
    ∧ slide_font false "font.ttf" "Great phone, value for money"
        ≠ Except.error RenderError.fontLoadError :=
  ⟨rfl, fun h => Except.noConfusion h⟩

/-- Claim C3 as amended: an unreadable or invalid font is not surfaced before
rendering; on the complex script path it raises a font load error during the
render of each affected slide, while on the simple script path the failure is
caught and the library default font is silently substituted, so a run whose
passages are all simple script succeeds with every slide drawn in the
fallback font. -/
theorem invalid_font_amended (font_path : String) (chunks : List String)
    (text : String)
    (hsimple : ∀ c ∈ chunks, contains_complex_script c = false)
    (hcomplex : contains_complex_script text = true) :
    generate_images_fonts false font_path chunks
      = Except.ok (chunks.map fun _ => LoadedFont.fallbackDefault)
    ∧ slide_font false font_path text = Except.error RenderError.fontLoadError := by
  constructor
  · induction chunks with
    | nil => rfl
    | cons c cs ih =>
        have hc := hsimple c (by simp)
        have ih' := ih (fun x hx => hsimple x (by simp [hx]))
        simp [generate_images_fonts, slide_font, hc, ih', Bind.bind, Except.bind,
          Pure.pure, Except.pure]
  · simp [slide_font, hcomplex]

/-- Witness for the amended claim C3: one simple script passage renders in
the fallback font, and one Devanagari passage raises the font load error. -/
theorem invalid_font_amended_witness :
    generate_images_fonts false "font.ttf" ["good phone"]
      = Except.ok [LoadedFont.fallbackDefault]
    ∧ slide_font false "font.ttf" "बहुत बढिया" = Except.error RenderError.fontLoadError := by
  have := invalid_font_amended "font.ttf" ["good phone"] "बहुत बढिया"
    (by decide) (by decide)
  simpa using this

/-- Counterexample to claim C4: the claim states the foreground bar width is
round(canvas_width * (i + 1) / n).  With canvas width 10, 3 slides and slide
index 1 the code computes int(10 * 2 / 3) = 6 while rounding gives 7. -/
theorem bar_width_truncates_not_rounds :
    bar_width 10 3 1 = 6 ∧ round ((10 : ℚ) * (((1 : ℚ) + 1) / (3 : ℚ))) = 7 := by
  constructor
  · unfold bar_width pyTrunc
    rw [if_pos (by norm_num)]
    norm_num
  · rw [round_eq]
    norm_num

/-- Claim C4 as amended: in exact arithmetic the foreground bar width is the
truncation (floor, the value being nonnegative) of
canvas_width * (i + 1) / n, and for the last slide it equals the canvas
width exactly. -/
theorem bar_width_trunc_rule (canvas_w total_slides idx : ℕ)
    (h : 0 < total_slides) :
    bar_width canvas_w total_slides idx
      = ⌊((canvas_w : ℚ) * ((idx : ℚ) + 1)) / (total_slides : ℚ)⌋
    ∧ bar_width canvas_w total_slides (total_slides - 1) = (canvas_w : ℤ) := by
  have hn : (0 : ℚ) < (total_slides : ℚ) := by exact_mod_cast h
  constructor
  · unfold bar_width pyTrunc
    rw [if_pos (by positivity), mul_div_assoc]
  · unfold bar_width pyTrunc
    have hcast : ((total_slides - 1 : ℕ) : ℚ) + 1 = (total_slides : ℚ) := by
      rw [Nat.cast_sub h]
      ring
    rw [if_pos (by positivity), hcast, div_self hn.ne', mul_one, Int.floor_natCast]

/-- Witness for the amended claim C4: with 4 slides on a 10 px canvas, slide
index 2 gets the floored width and the last slide the full width. -/
theorem bar_width_trunc_rule_witness :
    0 < 4
    ∧ (bar_width 10 4 2 = ⌊(((10 : ℕ) : ℚ) * (((2 : ℕ) : ℚ) + 1)) / ((4 : ℕ) : ℚ)⌋
       ∧ bar_width 10 4 3 = ((10 : ℕ) : ℤ)) := by
  refine ⟨by decide, ?_⟩
  have := bar_width_trunc_rule 10 4 2 (by decide)
  simpa using this

/-- Claim C5: the video duration of a slide unit is max(audio duration,
min duration) when the minimum is positive and the unaltered audio duration
otherwise, and the audio duration of the unit always equals its video
duration, the audio having been extended to match whenever the duration was
raised. -/
theorem unit_duration_rule (m a : ℚ) :
    (make_unit m a).videoDur = (if 0 < m then max a m else a)
    ∧ (make_unit m a).audioDur = (make_unit m a).videoDur := by
  unfold make_unit
  by_cases h1 : 0 < m
  · by_cases h2 : a < m
    · simp [h1, h2, max_eq_right h2.le]
    · simp [h1, h2, max_eq_left (le_of_not_lt h2)]
  · simp [h1]

/-- Counterexample to claim C6: the claim states each fade length is clamped
to at most half of the total timeline duration.  On a half second timeline
the code still requests a one second fade in, which exceeds half of the
duration. -/
theorem fade_not_clamped :
    (apply_envelope (1/2)).fadein_dur = 1
    ∧ ¬ ((apply_envelope (1/2)).fadein_dur ≤ (apply_envelope (1/2)).duration / 2) := by
  constructor
  · rfl
  · show ¬ ((1 : ℚ) ≤ (1/2 : ℚ) / 2)
    norm_num

/-- Claim C6 as amended: a fixed one second fade in and fade out are applied
to the final composed timeline after all track mixing, with no clamping: the
fade parameters stay one second whatever the total duration, also on
timelines shorter than two seconds. -/
theorem fade_fixed_one_second (total : ℚ) :
    (apply_envelope total).fadein_dur = 1
    ∧ (apply_envelope total).fadeout_dur = 1
    ∧ (apply_envelope total).duration = total :=
  ⟨rfl, rfl, rfl⟩

/-- Claim C8: the vertical anchor rule: top puts the block top at the fixed
60 px margin, bottom at canvas height minus block height minus 60 floored at
the 30 px minimum, center at half the remaining height floored at the same
minimum; the block top is always positive, and for integer block heights the
complex and the simple path compute the same value. -/
theorem vertical_anchor_rule (canvas_h : ℤ) (total_h : ℚ) (hz : ℤ)
    (pos : TextPosition) (hh : 0 ≤ total_h) (hhz : 0 ≤ hz) :
    vertical_y_complex canvas_h total_h TextPosition.top = 60
    ∧ vertical_y_complex canvas_h total_h TextPosition.bottom
        = max ((canvas_h : ℚ) - ((⌊total_h⌋ : ℤ) : ℚ) - 60) 30
    ∧ vertical_y_complex canvas_h total_h TextPosition.center
        = max ((⌊((canvas_h : ℚ) - total_h) / 2⌋ : ℤ) : ℚ) 30
    ∧ 0 < vertical_y_complex canvas_h total_h pos
    ∧ vertical_y_complex canvas_h (hz : ℚ) pos = vertical_y_simple canvas_h hz pos := by
  have htr : pyTrunc total_h = ⌊total_h⌋ := if_pos hh
  refine ⟨rfl, by rw [vertical_y_complex, htr], rfl, ?_, ?_⟩
  · cases pos with
    | top => norm_num [vertical_y_complex]
    | bottom => exact lt_of_lt_of_le (by norm_num) (le_max_right _ _)
    | center => exact lt_of_lt_of_le (by norm_num) (le_max_right _ _)
  · cases pos with
    | top => rfl
    | bottom =>
        have hz' : pyTrunc ((hz : ℚ)) = hz := by
          rw [pyTrunc, if_pos (by exact_mod_cast hhz), Int.floor_intCast]
        rw [vertical_y_complex, vertical_y_simple, hz']
    | center => rfl

/-- Witness for claim C8: a 1280 px canvas with a 196 px block anchored at
the bottom, and the integer height 130 agreeing across both paths. -/
theorem vertical_anchor_rule_witness :
    (0 : ℚ) ≤ 196 ∧ (0 : ℤ) ≤ 130
    ∧ (vertical_y_complex 1280 196 TextPosition.top = 60
       ∧ vertical_y_complex 1280 196 TextPosition.bottom
           = max ((1280 : ℚ) - ((⌊(196 : ℚ)⌋ : ℤ) : ℚ) - 60) 30
       ∧ vertical_y_complex 1280 196 TextPosition.center
           = max ((⌊((1280 : ℚ) - 196) / 2⌋ : ℤ) : ℚ) 30
       ∧ 0 < vertical_y_complex 1280 196 TextPosition.bottom
       ∧ vertical_y_complex 1280 (130 : ℤ) TextPosition.bottom
           = vertical_y_simple 1280 130 TextPosition.bottom) := by
  refine ⟨by norm_num, by norm_num, ?_⟩
  exact vertical_anchor_rule 1280 196 130 TextPosition.bottom (by norm_num) (by norm_num)

/-- Claim C9: style presets are resolved into concrete field values before
rendering, so rendering with a preset produces exactly the frame observables
obtained by rendering with the default style and the resolved fields; the
renderer itself never receives the preset name. -/
theorem style_presets_resolved_before_render (canvas_h : ℤ) (total_h : ℚ)
    (style : StylePreset) (base : StyleFields) :
    render_with_style canvas_h total_h style base
      = render_with_style canvas_h total_h StylePreset.default
          (resolve_style style base) := rfl

/-- Claim C10: for every real box alpha input, also below 0 or above 1, the
renderer clamps into the unit interval before scaling to 8 bits, so the box
fill alpha is an integer between 0 and 255, and out of range inputs give the
same alpha as their clamped value instead of being rejected. -/
theorem box_alpha_clamped_byte (box_alpha : ℚ) :
    (0 ≤ boxAlpha255 box_alpha ∧ boxAlpha255 box_alpha ≤ 255)
    ∧ boxAlpha255 box_alpha = boxAlpha255 (max 0 (min 1 box_alpha)) := by
  have hc0 : (0 : ℚ) ≤ max 0 (min 1 box_alpha) := le_max_left _ _
  have hc1 : max 0 (min 1 box_alpha) ≤ 1 := max_le (by norm_num) (min_le_left _ _)
  have h0 : (0 : ℚ) ≤ max 0 (min 1 box_alpha) * 255 := by positivity
  refine ⟨⟨?_, ?_⟩, ?_⟩
  · rw [boxAlpha255, pyTrunc, if_pos h0]
    exact Int.floor_nonneg.mpr h0
  · rw [boxAlpha255, pyTrunc, if_pos h0]
    have hle : max 0 (min 1 box_alpha) * 255 ≤ (255 : ℚ) := by nlinarith
    calc ⌊max 0 (min 1 box_alpha) * 255⌋ ≤ ⌊(255 : ℚ)⌋ := Int.floor_le_floor hle
      _ = 255 := by norm_num
  · rw [boxAlpha255, boxAlpha255, min_eq_right hc1, max_eq_right hc0]
